import Mathlib

/-!
Shallow embedding of the color-guessing game in
`src/src/components/color-game.tsx`.

Modelling conventions:

* A call `Math.floor(Math.random() * k)` is modelled as `ρ i % k`, where
  `ρ : Nat → Nat` is an ambient stream of raw random draws and `i` is the
  index of the next unconsumed draw.  Every value in `[0, k)` is reachable
  and no other value is, exactly as in the source.  Functions thread the
  index explicitly and return the next free index.
* JavaScript numbers produced by the game are non-negative integers
  (floors of non-negative reals), so components are `Nat`; the one place a
  negative intermediate value appears (`hueVariation` in
  `generateSimilarColor`) is computed in `Int`, matching JS integer
  arithmetic, and the JS `%` there is applied to a provably non-negative
  dividend, where it agrees with `Int.emod`.
* Colors travel through the source as strings `hsl(h, s%, l%)` built by a
  template literal.  The embedding keeps the underlying triple as a
  `Color` structure and models the template literal by `hslString`;
  comparisons that the source performs on strings (`includes`, `===`) are
  modelled as comparisons of `hslString` images.
* The `while (options.length < 6)` loop is modelled with explicit fuel and
  returns `none` when the fuel is exhausted before the loop exits.
* `[...options].sort(() => Math.random() - 0.5)` produces some permutation
  of its input (ECMAScript guarantees the sort result is a permutation of
  the input even for an inconsistent comparator).  The shuffle is an
  explicit function parameter; theorems assume only that it permutes its
  argument, and the random draws it consumes are abstracted into it.
-/

/-- Color is the hue/saturation/lightness triple behind the `hsl(h, s%, l%)`
string the source manipulates. -/
structure Color where
  hue : Nat
  sat : Nat
  light : Nat
deriving DecidableEq, Repr

/-- RandStream is a stream of raw random draws; draw `i` feeds the `i`-th call of
`Math.floor(Math.random() * k)` as `ρ i % k`. -/
def RandStream : Type := Nat → Nat

/-- decDigitsAux computes the big-endian decimal digit list of `n`,
structurally recursing on `fuel` (any `fuel ≥ n` suffices). -/
def decDigitsAux : Nat → Nat → List Nat
  | _, 0 => []
  | 0, _ + 1 => []
  | fuel + 1, n + 1 => decDigitsAux fuel ((n + 1) / 10) ++ [(n + 1) % 10]

/-- decDigits gives the big-endian decimal digits of `n` (empty for 0). -/
def decDigits (n : Nat) : List Nat := decDigitsAux n n

/-- decChars is the decimal string of a non-negative integer as JavaScript
number-to-string conversion produces it inside a template literal. -/
def decChars (n : Nat) : List Char :=
  if n = 0 then ['0'] else (decDigits n).map Nat.digitChar

/-- hslChars spells out the template literal
`hsl(h, s%, l%)` as a character list. -/
def hslChars (c : Color) : List Char :=
  ['h', 's', 'l', '('] ++ decChars c.hue ++ [',', ' '] ++ decChars c.sat
    ++ ['%', ',', ' '] ++ decChars c.light ++ ['%', ')']

/-- hslString is the string the source stores and compares for a color. -/
def hslString (c : Color) : String := String.mk (hslChars c)

/-- generateRandomColor mirrors the source helper: hue is the base hue when
one is given (the `??` short-circuit skips the random draw), otherwise a
fresh draw below 360; saturation is `70 + draw % 30`; lightness is
`45 + draw % 20`.  Returns the color and the next free draw index. -/
def generateRandomColor (ρ : RandStream) (baseHue : Option Nat) (i : Nat) :
    Color × Nat :=
  match baseHue with
  | some h => (⟨h, 70 + ρ i % 30, 45 + ρ (i + 1) % 20⟩, i + 2)
  | none => (⟨ρ i % 360, 70 + ρ (i + 1) % 30, 45 + ρ (i + 2) % 20⟩, i + 3)

/-- generateSimilarColor mirrors the source helper: draws
`hueVariation = floor(random * 30) - 15` and recolors at hue
`(baseHue + hueVariation + 360) % 360`. -/
def generateSimilarColor (ρ : RandStream) (baseHue : Nat) (i : Nat) :
    Color × Nat :=
  let hueVariation : Int := (ρ i % 30 : Nat) - 15
  let newHue : Nat := (((baseHue : Int) + hueVariation + 360) % 360).toNat
  generateRandomColor ρ (some newHue) (i + 1)

/-- fillOptions is the `while (options.length < 6)` loop of `resetGame`:
generate a similar color and push it unless `options.includes` it already
(string comparison).  `none` means the fuel ran out before the loop exited. -/
def fillOptions (ρ : RandStream) (baseHue : Nat) :
    Nat → List Color → Nat → Option (List Color × Nat)
  | 0, options, i =>
    if options.length < 6 then none else some (options, i)
  | fuel + 1, options, i =>
    if options.length < 6 then
      if (options.map hslString).contains
          (hslString (generateSimilarColor ρ baseHue i).1) then
        fillOptions ρ baseHue fuel options (generateSimilarColor ρ baseHue i).2
      else
        fillOptions ρ baseHue fuel
          (options ++ [(generateSimilarColor ρ baseHue i).1])
          (generateSimilarColor ρ baseHue i).2
    else
      some (options, i)

/-- GameState collects the component state hooks of `ColorGame`. -/
structure GameState where
  targetColor : Color
  colorOptions : List Color
  score : Nat
  gameStatus : String
  isAnimating : Bool
  textColor : String
deriving DecidableEq, Repr

/-- resetGame mirrors the source `resetGame` callback: draw a base hue,
derive the target, fill five similar options, shuffle, and reset the round
state (score untouched). -/
def resetGame (ρ : RandStream) (shuffle : List Color → List Color) (fuel : Nat)
    (s : GameState) (i : Nat) : Option (GameState × Nat) :=
  let baseHue := ρ i % 360
  let t := generateRandomColor ρ (some baseHue) (i + 1)
  match fillOptions ρ baseHue fuel [t.1] t.2 with
  | none => none
  | some (options, i') =>
      some ({ s with
                targetColor := t.1
                colorOptions := shuffle options
                gameStatus := ""
                isAnimating := false
                textColor := "text-gray-800" }, i')

/-- startNewGame mirrors the source: zero the score, then `resetGame`. -/
def startNewGame (ρ : RandStream) (shuffle : List Color → List Color) (fuel : Nat)
    (s : GameState) (i : Nat) : Option (GameState × Nat) :=
  resetGame ρ shuffle fuel { s with score := 0 } i

/-- Outcome names the branch `handleGuess` takes: the guess was ignored
because `isAnimating` was set, or it compared equal or unequal to the
target string. -/
inductive Outcome where
  | ignored
  | correct
  | incorrect
deriving DecidableEq, Repr

/-- handleGuess mirrors the synchronous part of the source handler: an
ignored no-op while animating; otherwise compare the guess string with the
target string, bump the score and set the feedback on a match, or set the
failure feedback on a mismatch.  The `setTimeout` continuations are the
separate steps `afterCorrectTimeout` and `afterIncorrectTimeout`. -/
def handleGuess (s : GameState) (c : Color) : GameState × Outcome :=
  if s.isAnimating then (s, .ignored)
  else if hslString c = hslString s.targetColor then
    ({ s with
         isAnimating := true
         score := s.score + 1
         gameStatus := "Correct! Well done! 🎉"
         textColor := "text-green-500" }, .correct)
  else
    ({ s with
         isAnimating := true
         gameStatus := "Wrong guess! Try again! 😢"
         textColor := "text-red-500" }, .incorrect)

/-- afterCorrectTimeout is the deferred continuation of a correct guess:
restore the text color and start a new round via `resetGame`. -/
def afterCorrectTimeout (ρ : RandStream) (shuffle : List Color → List Color)
    (fuel : Nat) (s : GameState) (i : Nat) : Option (GameState × Nat) :=
  resetGame ρ shuffle fuel { s with textColor := "text-gray-800" } i

/-- afterIncorrectTimeout is the deferred continuation of a wrong guess:
restore the text color and re-enable input; the round itself is untouched. -/
def afterIncorrectTimeout (s : GameState) : GameState :=
  { s with textColor := "text-gray-800", isAnimating := false }

/-- validColor states the generator ranges of the data model: hue in
[0,360), saturation in [70,100), lightness in [45,65). -/
def validColor (c : Color) : Prop :=
  c.hue < 360 ∧ 70 ≤ c.sat ∧ c.sat < 100 ∧ 45 ≤ c.light ∧ c.light < 65

instance (c : Color) : Decidable (validColor c) := by
  unfold validColor; infer_instance

/-- decVal reads a big-endian digit list back as a number; it is the
left inverse that makes `decDigits` injective. -/
def decVal (l : List Nat) : Nat := l.foldl (fun a d => 10 * a + d) 0

theorem decVal_append_digit (l : List Nat) (d : Nat) :
    decVal (l ++ [d]) = 10 * decVal l + d := by
  simp [decVal, List.foldl_append]

theorem decVal_decDigitsAux :
    ∀ fuel n, n ≤ fuel → decVal (decDigitsAux fuel n) = n := by
  intro fuel
  induction fuel with
  | zero =>
    intro n hn
    interval_cases n
    simp [decDigitsAux, decVal]
  | succ fuel ih =>
    intro n hn
    match n with
    | 0 => simp [decDigitsAux, decVal]
    | m + 1 =>
      have hdiv : (m + 1) / 10 ≤ fuel := by
        have := Nat.div_le_self (m + 1) 10
        omega
      rw [decDigitsAux, decVal_append_digit, ih _ hdiv]
      omega

theorem decVal_decDigits (n : Nat) : decVal (decDigits n) = n :=
  decVal_decDigitsAux n n (Nat.le_refl n)

theorem decDigits_injective {m n : Nat} (h : decDigits m = decDigits n) :
    m = n := by
  have := decVal_decDigits m
  rw [h, decVal_decDigits] at this
  exact this.symm

theorem decDigitsAux_lt_ten :
    ∀ fuel n, ∀ d ∈ decDigitsAux fuel n, d < 10 := by
  intro fuel
  induction fuel with
  | zero =>
    intro n d hd
    match n with
    | 0 => simp [decDigitsAux] at hd
    | _ + 1 => simp [decDigitsAux] at hd
  | succ fuel ih =>
    intro n d hd
    match n with
    | 0 => simp [decDigitsAux] at hd
    | m + 1 =>
      rw [decDigitsAux] at hd
      rcases List.mem_append.mp hd with h1 | h2
      · exact ih _ _ h1
      · simp at h2
        omega

theorem decDigits_lt_ten (n : Nat) : ∀ d ∈ decDigits n, d < 10 :=
  decDigitsAux_lt_ten n n

theorem digitChar_isDigit : ∀ d, d < 10 → (Nat.digitChar d).isDigit = true := by
  decide

theorem digitChar_injOn :
    ∀ a, a < 10 → ∀ b, b < 10 → Nat.digitChar a = Nat.digitChar b → a = b := by
  decide

theorem decChars_isDigit (n : Nat) : ∀ x ∈ decChars n, x.isDigit = true := by
  intro x hx
  unfold decChars at hx
  split at hx
  · simp at hx
    subst hx
    decide
  · rcases List.mem_map.mp hx with ⟨d, hd, rfl⟩
    exact digitChar_isDigit d (decDigits_lt_ten n d hd)

theorem map_digitChar_inj :
    ∀ l1 l2 : List Nat, (∀ d ∈ l1, d < 10) → (∀ d ∈ l2, d < 10) →
      l1.map Nat.digitChar = l2.map Nat.digitChar → l1 = l2 := by
  intro l1
  induction l1 with
  | nil =>
    intro l2 _ _ h
    cases l2 with
    | nil => rfl
    | cons y ys => simp at h
  | cons x xs ih =>
    intro l2 h1 h2 h
    cases l2 with
    | nil => simp at h
    | cons y ys =>
      simp only [List.map_cons, List.cons.injEq] at h
      have hx : x = y :=
        digitChar_injOn x (h1 x (List.mem_cons_self x xs)) y
          (h2 y (List.mem_cons_self y ys)) h.1
      have hxs : xs = ys :=
        ih ys (fun d hd => h1 d (List.mem_cons_of_mem _ hd))
          (fun d hd => h2 d (List.mem_cons_of_mem _ hd)) h.2
      rw [hx, hxs]

theorem map_digitChar_ne_zero_singleton (n : Nat) (hn : n ≠ 0) :
    (decDigits n).map Nat.digitChar ≠ ['0'] := by
  intro h
  cases hd : decDigits n with
  | nil =>
    rw [hd] at h
    simp at h
  | cons d l =>
    rw [hd] at h
    cases l with
    | nil =>
      simp only [List.map_cons, List.map_nil, List.cons.injEq, and_true] at h
      have hd10 : d < 10 := decDigits_lt_ten n d (by rw [hd]; simp)
      have hd0 : d = 0 := by
        have h0 : Nat.digitChar d = Nat.digitChar 0 := by rw [h]; rfl
        exact digitChar_injOn d hd10 0 (by omega) h0
      subst hd0
      have := decVal_decDigits n
      rw [hd] at this
      simp [decVal] at this
      omega
    | cons d2 l2 => simp at h

theorem decChars_injective {m n : Nat} (h : decChars m = decChars n) :
    m = n := by
  unfold decChars at h
  rcases Nat.eq_zero_or_pos m with hm | hm
  · rcases Nat.eq_zero_or_pos n with hn | hn
    · omega
    · subst hm
      rw [if_pos rfl, if_neg (by omega)] at h
      exact absurd h.symm (map_digitChar_ne_zero_singleton n (by omega))
  · rcases Nat.eq_zero_or_pos n with hn | hn
    · subst hn
      rw [if_neg (by omega), if_pos rfl] at h
      exact absurd h (map_digitChar_ne_zero_singleton m (by omega))
    · rw [if_neg (by omega), if_neg (by omega)] at h
      exact decDigits_injective
        (map_digitChar_inj _ _ (decDigits_lt_ten m) (decDigits_lt_ten n) h)

/-- A run of digit characters followed by a non-digit delimiter is parsed
unambiguously: equal concatenations force equal digit runs and tails. -/
theorem digit_run_append_inj :
    ∀ (a b c d : List Char),
      (∀ x ∈ a, x.isDigit = true) → (∀ x ∈ b, x.isDigit = true) →
      (∀ x, c.head? = some x → x.isDigit = false) →
      (∀ x, d.head? = some x → x.isDigit = false) →
      a ++ c = b ++ d → a = b ∧ c = d := by
  intro a
  induction a with
  | nil =>
    intro b c d _ hb hc _ h
    cases b with
    | nil => exact ⟨rfl, h⟩
    | cons y ys =>
      exfalso
      simp only [List.nil_append, List.cons_append] at h
      have hy : c.head? = some y := by rw [h]; rfl
      have := hc y hy
      have := hb y (List.mem_cons_self y ys)
      simp_all
  | cons x xs ih =>
    intro b c d ha hb hc hd h
    cases b with
    | nil =>
      exfalso
      simp only [List.nil_append, List.cons_append] at h
      have hx : d.head? = some x := by rw [← h]; rfl
      have := hd x hx
      have := ha x (List.mem_cons_self x xs)
      simp_all
    | cons y ys =>
      simp only [List.cons_append, List.cons.injEq] at h
      obtain ⟨hxy, htail⟩ := h
      have := ih ys c d (fun z hz => ha z (List.mem_cons_of_mem _ hz))
        (fun z hz => hb z (List.mem_cons_of_mem _ hz)) hc hd htail
      exact ⟨by rw [hxy, this.1], this.2⟩

theorem comma_not_digit : (',' : Char).isDigit = false := by decide

theorem percent_not_digit : ('%' : Char).isDigit = false := by decide

theorem head_of_cons_not_digit {a : Char} {l : List Char}
    (ha : a.isDigit = false) :
    ∀ x : Char, (a :: l).head? = some x → x.isDigit = false := by
  intro x hx
  simp only [List.head?_cons, Option.some.injEq] at hx
  rw [← hx]
  exact ha

theorem hslChars_eq (c : Color) :
    hslChars c =
      'h' :: 's' :: 'l' :: '(' ::
        (decChars c.hue ++ (',' :: ' ' ::
          (decChars c.sat ++ ('%' :: ',' :: ' ' ::
            (decChars c.light ++ ['%', ')']))))) := by
  simp [hslChars]

theorem hslChars_injective {c1 c2 : Color} (h : hslChars c1 = hslChars c2) :
    c1 = c2 := by
  rw [hslChars_eq, hslChars_eq] at h
  simp only [List.cons.injEq, true_and] at h
  have hhue := digit_run_append_inj (decChars c1.hue) (decChars c2.hue) _ _
    (decChars_isDigit c1.hue) (decChars_isDigit c2.hue)
    (head_of_cons_not_digit comma_not_digit)
    (head_of_cons_not_digit comma_not_digit) h
  have h2 := hhue.2
  simp only [List.cons.injEq, true_and] at h2
  have hsat := digit_run_append_inj (decChars c1.sat) (decChars c2.sat) _ _
    (decChars_isDigit c1.sat) (decChars_isDigit c2.sat)
    (head_of_cons_not_digit percent_not_digit)
    (head_of_cons_not_digit percent_not_digit) h2
  have h3 := hsat.2
  simp only [List.cons.injEq, true_and] at h3
  have hlight := List.append_cancel_right h3
  have hh := decChars_injective hhue.1
  have hs := decChars_injective hsat.1
  have hl := decChars_injective hlight
  cases c1
  cases c2
  simp_all

theorem hslString_injective {c1 c2 : Color} (h : hslString c1 = hslString c2) :
    c1 = c2 := by
  unfold hslString at h
  injection h with h
  exact hslChars_injective h

theorem hslString_eq_iff {c1 c2 : Color} :
    hslString c1 = hslString c2 ↔ c1 = c2 :=
  ⟨hslString_injective, fun h => by rw [h]⟩

theorem fillOptions_length (ρ : RandStream) (b : Nat) :
    ∀ fuel options i res, options.length ≤ 6 →
      fillOptions ρ b fuel options i = some res → res.1.length = 6 := by
  intro fuel
  induction fuel with
  | zero =>
    intro options i res hlen h
    rw [fillOptions] at h
    split at h
    · exact absurd h (by simp)
    next hge =>
      obtain rfl : (options, i) = res := by injection h
      show options.length = 6
      omega
  | succ fuel ih =>
    intro options i res hlen h
    rw [fillOptions] at h
    split at h
    next hlt =>
      split at h
      · exact ih _ _ _ hlen h
      · exact ih _ _ _ (by simp; omega) h
    next hge =>
      obtain rfl : (options, i) = res := by injection h
      show options.length = 6
      omega

theorem fillOptions_mem (ρ : RandStream) (b : Nat) :
    ∀ fuel options i res, fillOptions ρ b fuel options i = some res →
      (∀ c ∈ options, c ∈ res.1) ∧
      (∀ c ∈ res.1, c ∈ options ∨ ∃ j, c = (generateSimilarColor ρ b j).1) := by
  intro fuel
  induction fuel with
  | zero =>
    intro options i res h
    rw [fillOptions] at h
    split at h
    · exact absurd h (by simp)
    · obtain rfl : (options, i) = res := by injection h
      exact ⟨fun c hc => hc, fun c hc => Or.inl hc⟩
  | succ fuel ih =>
    intro options i res h
    rw [fillOptions] at h
    split at h
    next hlt =>
      split at h
      · exact ih _ _ _ h
      · have := ih _ _ _ h
        refine ⟨fun c hc => this.1 c (List.mem_append_left _ hc), fun c hc => ?_⟩
        rcases this.2 c hc with hmem | hgen
        · rcases List.mem_append.mp hmem with h1 | h2
          · exact Or.inl h1
          · simp only [List.mem_singleton] at h2
            exact Or.inr ⟨i, h2⟩
        · exact Or.inr hgen
    next hlt =>
      obtain rfl : (options, i) = res := by injection h
      exact ⟨fun c hc => hc, fun c hc => Or.inl hc⟩

theorem fillOptions_nodup (ρ : RandStream) (b : Nat) :
    ∀ fuel options i res, (options.map hslString).Nodup →
      fillOptions ρ b fuel options i = some res →
      (res.1.map hslString).Nodup := by
  intro fuel
  induction fuel with
  | zero =>
    intro options i res hnd h
    rw [fillOptions] at h
    split at h
    · exact absurd h (by simp)
    · obtain rfl : (options, i) = res := by injection h
      exact hnd
  | succ fuel ih =>
    intro options i res hnd h
    rw [fillOptions] at h
    split at h
    next hlt =>
      split at h
      · exact ih _ _ _ hnd h
      next hnc =>
        refine ih _ _ _ ?_ h
        rw [List.map_append, List.map_singleton]
        refine List.Nodup.append hnd (List.nodup_singleton _) ?_
        intro x hx hy
        simp only [List.mem_singleton] at hy
        subst hy
        have : (options.map hslString).contains
            (hslString (generateSimilarColor ρ b i).1) = true :=
          List.elem_eq_true_of_mem hx
        simp_all
    next hlt =>
      obtain rfl : (options, i) = res := by injection h
      exact hnd

theorem generateRandomColor_some_valid (ρ : RandStream) (h i : Nat)
    (hh : h < 360) : validColor (generateRandomColor ρ (some h) i).1 := by
  refine ⟨hh, ?_, ?_, ?_, ?_⟩ <;>
    simp [generateRandomColor] <;> omega

theorem generateSimilarColor_newHue_lt (b : Nat) (v : Int) :
    ((((b : Int) + (v - 15) + 360) % 360)).toNat < 360 := by
  have h1 : ((b : Int) + (v - 15) + 360) % 360 < 360 :=
    Int.emod_lt_of_pos _ (by omega)
  have h2 : 0 ≤ ((b : Int) + (v - 15) + 360) % 360 :=
    Int.emod_nonneg _ (by omega)
  omega

theorem generateSimilarColor_valid (ρ : RandStream) (b i : Nat) :
    validColor (generateSimilarColor ρ b i).1 := by
  unfold generateSimilarColor
  exact generateRandomColor_some_valid ρ _ _
    (generateSimilarColor_newHue_lt b ((ρ i % 30 : Nat) : Int))

theorem generateSimilarColor_hue (ρ : RandStream) (b i : Nat) :
    ∃ off : Int, -15 ≤ off ∧ off ≤ 15 ∧
      ((generateSimilarColor ρ b i).1.hue : Int) = ((b : Int) + off) % 360 := by
  refine ⟨((ρ i % 30 : Nat) : Int) - 15, by omega, ?_, ?_⟩
  · have : ρ i % 30 < 30 := Nat.mod_lt _ (by omega)
    omega
  · unfold generateSimilarColor generateRandomColor
    have h2 : 0 ≤ ((b : Int) + (((ρ i % 30 : Nat) : Int) - 15) + 360) % 360 :=
      Int.emod_nonneg _ (by omega)
    simp only
    rw [Int.toNat_of_nonneg h2]
    omega

theorem generateSimilarColor_hue_eq (ρ : RandStream) (b i : Nat) :
    ((generateSimilarColor ρ b i).1.hue : Int) =
      ((b : Int) + (((ρ i % 30 : Nat) : Int) - 15) + 360) % 360 := by
  unfold generateSimilarColor generateRandomColor
  have h2 : 0 ≤ ((b : Int) + (((ρ i % 30 : Nat) : Int) - 15) + 360) % 360 :=
    Int.emod_nonneg _ (by omega)
  simp only
  rw [Int.toNat_of_nonneg h2]

theorem generateSimilarColor_hue_ne_base_add_15 (ρ : RandStream) (b i : Nat) :
    ((generateSimilarColor ρ b i).1.hue : Int) ≠ ((b : Int) + 15) % 360 := by
  rw [generateSimilarColor_hue_eq]
  have h30 : ρ i % 30 < 30 := Nat.mod_lt _ (by omega)
  omega

theorem generateRandomColor_some_hue (ρ : RandStream) (h i : Nat) :
    (generateRandomColor ρ (some h) i).1.hue = h := rfl

/-- A successful `resetGame` produces a round whose option list is a
6-element duplicate-free sequence containing the target once, whose colors
all lie in the generator ranges, whose target sits exactly at the drawn
base hue, and whose decoys sit within 15 degrees of it; score is
untouched and input is re-enabled. -/
theorem resetGame_sound (ρ : RandStream) (shuffle : List Color → List Color)
    (fuel : Nat) (s s' : GameState) (i i' : Nat)
    (hs : ∀ l, (shuffle l).Perm l)
    (h : resetGame ρ shuffle fuel s i = some (s', i')) :
    s'.colorOptions.length = 6 ∧
    s'.colorOptions.count s'.targetColor = 1 ∧
    s'.colorOptions.Nodup ∧
    validColor s'.targetColor ∧
    (∀ c ∈ s'.colorOptions, validColor c) ∧
    s'.targetColor.hue = ρ i % 360 ∧
    (∀ c ∈ s'.colorOptions, c ≠ s'.targetColor →
      ∃ off : Int, -15 ≤ off ∧ off ≤ 15 ∧
        (c.hue : Int) = (((ρ i % 360 : Nat) : Int) + off) % 360) ∧
    s'.score = s.score ∧ s'.isAnimating = false ∧ s'.gameStatus = "" := by
  simp only [resetGame] at h
  cases hfill : fillOptions ρ (ρ i % 360) fuel
      [(generateRandomColor ρ (some (ρ i % 360)) (i + 1)).1]
      (generateRandomColor ρ (some (ρ i % 360)) (i + 1)).2 with
  | none => rw [hfill] at h; exact absurd h (by simp)
  | some res =>
    obtain ⟨options, i2⟩ := res
    rw [hfill] at h
    simp only [Option.some.injEq, Prod.mk.injEq] at h
    obtain ⟨h1, h2⟩ := h
    subst h2
    rw [← h1]
    have hb : ρ i % 360 < 360 := Nat.mod_lt _ (by omega)
    have hndS : (options.map hslString).Nodup :=
      fillOptions_nodup ρ _ fuel _ _ _ (by simp) hfill
    have hlen : options.length = 6 :=
      fillOptions_length ρ _ fuel _ _ _ (by simp) hfill
    have hmem := fillOptions_mem ρ _ fuel _ _ _ hfill
    have htmem : (generateRandomColor ρ (some (ρ i % 360)) (i + 1)).1 ∈
        options := hmem.1 _ (by simp)
    have hnd : options.Nodup := List.Nodup.of_map _ hndS
    have hcount : options.count
        (generateRandomColor ρ (some (ρ i % 360)) (i + 1)).1 = 1 :=
      List.count_eq_one_of_mem hnd htmem
    have perm := hs options
    refine ⟨?_, ?_, ?_, ?_, ?_, ?_, ?_, rfl, rfl, rfl⟩
    · simpa [perm.length_eq] using hlen
    · simpa [perm.count_eq] using hcount
    · exact perm.nodup_iff.mpr hnd
    · exact generateRandomColor_some_valid ρ _ _ hb
    · intro c hc
      have hc' : c ∈ options := perm.mem_iff.mp hc
      rcases hmem.2 c hc' with hin | ⟨j, rfl⟩
      · simp only [List.mem_singleton] at hin
        subst hin
        exact generateRandomColor_some_valid ρ _ _ hb
      · exact generateSimilarColor_valid ρ _ _
    · exact generateRandomColor_some_hue ρ _ _
    · intro c hc hne
      have hc' : c ∈ options := perm.mem_iff.mp hc
      rcases hmem.2 c hc' with hin | ⟨j, rfl⟩
      · simp only [List.mem_singleton] at hin
        exact absurd hin hne
      · exact generateSimilarColor_hue ρ _ _

theorem handleGuess_animating (s : GameState) (c : Color)
    (h : s.isAnimating = true) : handleGuess s c = (s, Outcome.ignored) := by
  simp [handleGuess, h]

theorem handleGuess_correct_isAnimating (s : GameState) (c : Color)
    (h : (handleGuess s c).2 = Outcome.correct) :
    (handleGuess s c).1.isAnimating = true := by
  unfold handleGuess at *
  split at h
  · simp at h
  · split at h <;> simp_all

theorem handleGuess_correct_score (s : GameState) (c : Color)
    (h : (handleGuess s c).2 = Outcome.correct) :
    (handleGuess s c).1.score = s.score + 1 := by
  unfold handleGuess at *
  split at h
  · simp at h
  · split at h <;> simp_all

theorem foldl_handleGuess_animating (t : GameState)
    (h : t.isAnimating = true) :
    ∀ guesses : List Color,
      guesses.foldl (fun u g => (handleGuess u g).1) t = t := by
  intro guesses
  induction guesses with
  | nil => rfl
  | cons g gs ih =>
    simp only [List.foldl_cons]
    rw [handleGuess_animating t g h]
    exact ih

/-- Claim C3: for every pending (input-enabled) state, guessing a color
equal to the target yields the `correct` outcome and increments the score
by exactly 1. -/
theorem guess_target_correct_and_scores (s : GameState) (c : Color)
    (hp : s.isAnimating = false) (hc : c = s.targetColor) :
    (handleGuess s c).2 = Outcome.correct ∧
    (handleGuess s c).1.score = s.score + 1 := by
  subst hc
  simp [handleGuess, hp]

/-- Claim C3 witness at a concrete pending state. -/
theorem guess_target_correct_and_scores_witness :
    (handleGuess ⟨⟨200, 70, 45⟩, [⟨200, 70, 45⟩, ⟨190, 80, 50⟩], 3, "", false,
        "text-gray-800"⟩ ⟨200, 70, 45⟩).2 = Outcome.correct ∧
    (handleGuess ⟨⟨200, 70, 45⟩, [⟨200, 70, 45⟩, ⟨190, 80, 50⟩], 3, "", false,
        "text-gray-800"⟩ ⟨200, 70, 45⟩).1.score = 3 + 1 :=
  guess_target_correct_and_scores _ _ rfl rfl

/-- Claim C4: once a guess resolves the round as correct, the score has
been bumped exactly once and every further guess before a new round is
started leaves the state (hence the score) unchanged. -/
theorem no_double_count_after_correct (s : GameState) (c : Color)
    (h : (handleGuess s c).2 = Outcome.correct) :
    (handleGuess s c).1.score = s.score + 1 ∧
    ∀ guesses : List Color,
      guesses.foldl (fun u g => (handleGuess u g).1) (handleGuess s c).1 =
        (handleGuess s c).1 :=
  ⟨handleGuess_correct_score s c h,
   foldl_handleGuess_animating _ (handleGuess_correct_isAnimating s c h)⟩

/-- Claim C4 witness: a concrete correct guess bumps the score once, and a
concrete list of further guesses (including the target again) is a no-op. -/
theorem no_double_count_after_correct_witness :
    (handleGuess ⟨⟨200, 70, 45⟩, [⟨200, 70, 45⟩, ⟨190, 80, 50⟩], 0, "", false,
        "text-gray-800"⟩ ⟨200, 70, 45⟩).1.score = 0 + 1 ∧
    [⟨190, 80, 50⟩, ⟨200, 70, 45⟩, ⟨1, 2, 3⟩].foldl
        (fun u g => (handleGuess u g).1)
        (handleGuess ⟨⟨200, 70, 45⟩, [⟨200, 70, 45⟩, ⟨190, 80, 50⟩], 0, "",
          false, "text-gray-800"⟩ ⟨200, 70, 45⟩).1 =
      (handleGuess ⟨⟨200, 70, 45⟩, [⟨200, 70, 45⟩, ⟨190, 80, 50⟩], 0, "",
        false, "text-gray-800"⟩ ⟨200, 70, 45⟩).1 :=
  ⟨(no_double_count_after_correct _ _ (by decide)).1,
   (no_double_count_after_correct _ _ (by decide)).2
     [⟨190, 80, 50⟩, ⟨200, 70, 45⟩, ⟨1, 2, 3⟩]⟩

/-- Claim C5: for every pending state, a guess different from the target
yields the `incorrect` outcome, leaves the score unchanged, keeps the same
round (target and candidate sequence) in place, and after the feedback
timeout the same round is again open for guesses. -/
theorem wrong_guess_incorrect_keeps_round (s : GameState) (c : Color)
    (hp : s.isAnimating = false) (hne : c ≠ s.targetColor) :
    (handleGuess s c).2 = Outcome.incorrect ∧
    (handleGuess s c).1.score = s.score ∧
    (handleGuess s c).1.targetColor = s.targetColor ∧
    (handleGuess s c).1.colorOptions = s.colorOptions ∧
    (afterIncorrectTimeout (handleGuess s c).1).isAnimating = false ∧
    (afterIncorrectTimeout (handleGuess s c).1).targetColor = s.targetColor ∧
    (afterIncorrectTimeout (handleGuess s c).1).colorOptions =
      s.colorOptions ∧
    (afterIncorrectTimeout (handleGuess s c).1).score = s.score := by
  have hstr : hslString c ≠ hslString s.targetColor := fun h =>
    hne (hslString_injective h)
  simp [handleGuess, afterIncorrectTimeout, hp, hstr]

/-- Claim C5 witness at a concrete pending state and non-target guess. -/
theorem wrong_guess_incorrect_keeps_round_witness :
    (handleGuess ⟨⟨200, 70, 45⟩, [⟨200, 70, 45⟩, ⟨190, 80, 50⟩], 2, "", false,
        "text-gray-800"⟩ ⟨190, 80, 50⟩).2 = Outcome.incorrect ∧
    (handleGuess ⟨⟨200, 70, 45⟩, [⟨200, 70, 45⟩, ⟨190, 80, 50⟩], 2, "", false,
        "text-gray-800"⟩ ⟨190, 80, 50⟩).1.score = 2 ∧
    (handleGuess ⟨⟨200, 70, 45⟩, [⟨200, 70, 45⟩, ⟨190, 80, 50⟩], 2, "", false,
        "text-gray-800"⟩ ⟨190, 80, 50⟩).1.targetColor = ⟨200, 70, 45⟩ ∧
    (handleGuess ⟨⟨200, 70, 45⟩, [⟨200, 70, 45⟩, ⟨190, 80, 50⟩], 2, "", false,
        "text-gray-800"⟩ ⟨190, 80, 50⟩).1.colorOptions =
      [⟨200, 70, 45⟩, ⟨190, 80, 50⟩] ∧
    (afterIncorrectTimeout (handleGuess ⟨⟨200, 70, 45⟩,
        [⟨200, 70, 45⟩, ⟨190, 80, 50⟩], 2, "", false, "text-gray-800"⟩
        ⟨190, 80, 50⟩).1).isAnimating = false ∧
    (afterIncorrectTimeout (handleGuess ⟨⟨200, 70, 45⟩,
        [⟨200, 70, 45⟩, ⟨190, 80, 50⟩], 2, "", false, "text-gray-800"⟩
        ⟨190, 80, 50⟩).1).targetColor = ⟨200, 70, 45⟩ ∧
    (afterIncorrectTimeout (handleGuess ⟨⟨200, 70, 45⟩,
        [⟨200, 70, 45⟩, ⟨190, 80, 50⟩], 2, "", false, "text-gray-800"⟩
        ⟨190, 80, 50⟩).1).colorOptions = [⟨200, 70, 45⟩, ⟨190, 80, 50⟩] ∧
    (afterIncorrectTimeout (handleGuess ⟨⟨200, 70, 45⟩,
        [⟨200, 70, 45⟩, ⟨190, 80, 50⟩], 2, "", false, "text-gray-800"⟩
        ⟨190, 80, 50⟩).1).score = 2 :=
  wrong_guess_incorrect_keeps_round _ _ rfl (by decide)

/-- Claim C2 counterexample: on a concrete pending round with a validly
generated target, the malformed (out-of-range) guess color 999/999/999 is
not rejected with any invalid-color signal: `handleGuess` silently
compares it against the target and resolves the round as an ordinary
wrong guess, mutating the feedback state. -/
theorem malformed_guess_not_rejected_counterexample :
    ¬ validColor ⟨999, 999, 999⟩ ∧
    (handleGuess ⟨⟨200, 70, 45⟩, [⟨200, 70, 45⟩, ⟨190, 80, 50⟩], 0, "", false,
        "text-gray-800"⟩ ⟨999, 999, 999⟩).2 = Outcome.incorrect ∧
    (handleGuess ⟨⟨200, 70, 45⟩, [⟨200, 70, 45⟩, ⟨190, 80, 50⟩], 0, "", false,
        "text-gray-800"⟩ ⟨999, 999, 999⟩).1.gameStatus =
      "Wrong guess! Try again! 😢" ∧
    (handleGuess ⟨⟨200, 70, 45⟩, [⟨200, 70, 45⟩, ⟨190, 80, 50⟩], 0, "", false,
        "text-gray-800"⟩ ⟨999, 999, 999⟩).1.isAnimating = true := by
  refine ⟨by decide, ?_, ?_, ?_⟩ <;> decide

/-- Claim C2 (amended): a malformed input color (out-of-range components)
submitted as a guess on a pending round with a validly generated target is
not rejected: no invalid-color error kind exists in the code, and the
guess is silently compared against the target like any other, yielding the
ordinary `incorrect` outcome and leaving the score unchanged. -/
theorem malformed_guess_silently_compared (s : GameState) (c : Color)
    (hp : s.isAnimating = false) (ht : validColor s.targetColor)
    (hc : ¬ validColor c) :
    (handleGuess s c).2 = Outcome.incorrect ∧
    (handleGuess s c).1.score = s.score := by
  have hne : c ≠ s.targetColor := fun h => hc (h ▸ ht)
  have hstr : hslString c ≠ hslString s.targetColor := fun h =>
    hne (hslString_injective h)
  simp [handleGuess, hp, hstr]

/-- Claim C2 (amended) witness at a concrete malformed guess. -/
theorem malformed_guess_silently_compared_witness :
    (handleGuess ⟨⟨200, 70, 45⟩, [⟨200, 70, 45⟩, ⟨190, 80, 50⟩], 7, "", false,
        "text-gray-800"⟩ ⟨400, 0, 0⟩).2 = Outcome.incorrect ∧
    (handleGuess ⟨⟨200, 70, 45⟩, [⟨200, 70, 45⟩, ⟨190, 80, 50⟩], 7, "", false,
        "text-gray-800"⟩ ⟨400, 0, 0⟩).1.score = 7 :=
  malformed_guess_silently_compared _ _ rfl (by decide) (by decide)

/-- A concrete component state before any round has been generated. -/
def sampleInit : GameState := ⟨⟨0, 0, 0⟩, [], 5, "x", true, "y"⟩

/-- The round `resetGame` produces from `sampleInit` on the identity draw
stream with the identity shuffle and fuel 6. -/
def sampleRound : GameState :=
  ⟨⟨0, 71, 47⟩,
   [⟨0, 71, 47⟩, ⟨348, 74, 50⟩, ⟨351, 77, 53⟩, ⟨354, 80, 56⟩,
    ⟨357, 83, 59⟩, ⟨0, 86, 62⟩],
   5, "", false, "text-gray-800"⟩

/-- Claim C1: every round produced by `resetGame` or by the session reset
`startNewGame` has exactly 6 candidates, contains the target exactly once,
and has no two candidates equal as hue/saturation/lightness triples. -/
theorem generated_round_valid (ρ : RandStream)
    (shuffle : List Color → List Color) (fuel : Nat) (s s' : GameState)
    (i i' : Nat) (hs : ∀ l, (shuffle l).Perm l)
    (h : resetGame ρ shuffle fuel s i = some (s', i') ∨
         startNewGame ρ shuffle fuel s i = some (s', i')) :
    s'.colorOptions.length = 6 ∧
    s'.colorOptions.count s'.targetColor = 1 ∧
    s'.colorOptions.Nodup := by
  rcases h with h | h
  · obtain ⟨h1, h2, h3, _⟩ := resetGame_sound ρ shuffle fuel s s' i i' hs h
    exact ⟨h1, h2, h3⟩
  · unfold startNewGame at h
    obtain ⟨h1, h2, h3, _⟩ := resetGame_sound ρ shuffle fuel _ s' i i' hs h
    exact ⟨h1, h2, h3⟩

/-- Claim C1 witness: the concretely generated `sampleRound`. -/
theorem generated_round_valid_witness :
    sampleRound.colorOptions.length = 6 ∧
    sampleRound.colorOptions.count sampleRound.targetColor = 1 ∧
    sampleRound.colorOptions.Nodup :=
  generated_round_valid (fun n => n) (fun l => l) 6 sampleInit sampleRound
    0 18 (fun l => List.Perm.refl l) (Or.inl (by decide))

/-- Claim C6: in every generated round the target's hue is exactly the
drawn base hue, and every decoy's hue is `(base + off) mod 360` for some
offset `off` in [-15, 15]. -/
theorem decoys_near_base_hue (ρ : RandStream)
    (shuffle : List Color → List Color) (fuel : Nat) (s s' : GameState)
    (i i' : Nat) (hs : ∀ l, (shuffle l).Perm l)
    (h : resetGame ρ shuffle fuel s i = some (s', i')) :
    s'.targetColor.hue = ρ i % 360 ∧
    ∀ c ∈ s'.colorOptions, c ≠ s'.targetColor →
      ∃ off : Int, -15 ≤ off ∧ off ≤ 15 ∧
        (c.hue : Int) = (((ρ i % 360 : Nat) : Int) + off) % 360 := by
  obtain ⟨_, _, _, _, _, h6, h7, _⟩ :=
    resetGame_sound ρ shuffle fuel s s' i i' hs h
  exact ⟨h6, h7⟩

/-- Claim C6 witness: in `sampleRound` (base hue 0) the decoy 348/74/50
has hue `(0 + off) mod 360` for an offset in [-15, 15]. -/
theorem decoys_near_base_hue_witness :
    sampleRound.targetColor.hue = (fun n : Nat => n) 0 % 360 ∧
    ∃ off : Int, -15 ≤ off ∧ off ≤ 15 ∧
      (((⟨348, 74, 50⟩ : Color).hue : Int)) =
        ((((fun n : Nat => n) 0 % 360 : Nat) : Int) + off) % 360 :=
  ⟨(decoys_near_base_hue (fun n => n) (fun l => l) 6 sampleInit sampleRound
      0 18 (fun l => List.Perm.refl l) (by decide)).1,
   (decoys_near_base_hue (fun n => n) (fun l => l) 6 sampleInit sampleRound
      0 18 (fun l => List.Perm.refl l) (by decide)).2
     ⟨348, 74, 50⟩ (by decide) (by decide)⟩

/-- Claim C7: every color of a generated round, target or decoy, has hue
in [0,360), saturation in [70,100) and lightness in [45,65). -/
theorem generated_colors_in_ranges (ρ : RandStream)
    (shuffle : List Color → List Color) (fuel : Nat) (s s' : GameState)
    (i i' : Nat) (hs : ∀ l, (shuffle l).Perm l)
    (h : resetGame ρ shuffle fuel s i = some (s', i')) :
    validColor s'.targetColor ∧ ∀ c ∈ s'.colorOptions, validColor c := by
  obtain ⟨_, _, _, h4, h5, _⟩ := resetGame_sound ρ shuffle fuel s s' i i' hs h
  exact ⟨h4, h5⟩

/-- Claim C7 witness: the target and a decoy of `sampleRound` are in
range. -/
theorem generated_colors_in_ranges_witness :
    validColor sampleRound.targetColor ∧ validColor ⟨348, 74, 50⟩ :=
  ⟨(generated_colors_in_ranges (fun n => n) (fun l => l) 6 sampleInit
      sampleRound 0 18 (fun l => List.Perm.refl l) (by decide)).1,
   (generated_colors_in_ranges (fun n => n) (fun l => l) 6 sampleInit
      sampleRound 0 18 (fun l => List.Perm.refl l) (by decide)).2
     ⟨348, 74, 50⟩ (by decide)⟩

/-- Claim C8: `startNewGame` zeroes the score whatever it was and starts a
fresh round satisfying the round-validity property. -/
theorem session_reset_zeroes_score_and_restarts (ρ : RandStream)
    (shuffle : List Color → List Color) (fuel : Nat) (s s' : GameState)
    (i i' : Nat) (hs : ∀ l, (shuffle l).Perm l)
    (h : startNewGame ρ shuffle fuel s i = some (s', i')) :
    s'.score = 0 ∧
    s'.colorOptions.length = 6 ∧
    s'.colorOptions.count s'.targetColor = 1 ∧
    s'.colorOptions.Nodup := by
  unfold startNewGame at h
  obtain ⟨h1, h2, h3, _, _, _, _, h8, _⟩ :=
    resetGame_sound ρ shuffle fuel _ s' i i' hs h
  exact ⟨h8, h1, h2, h3⟩

/-- The round `startNewGame` produces from `sampleInit` on the identity
draw stream: `sampleRound` with the score reset to 0. -/
def sampleRoundZero : GameState :=
  ⟨⟨0, 71, 47⟩,
   [⟨0, 71, 47⟩, ⟨348, 74, 50⟩, ⟨351, 77, 53⟩, ⟨354, 80, 56⟩,
    ⟨357, 83, 59⟩, ⟨0, 86, 62⟩],
   0, "", false, "text-gray-800"⟩

/-- Claim C8 witness: resetting the session from a score of 5 yields score
0 and the valid `sampleRoundZero`. -/
theorem session_reset_zeroes_score_and_restarts_witness :
    sampleRoundZero.score = 0 ∧
    sampleRoundZero.colorOptions.length = 6 ∧
    sampleRoundZero.colorOptions.count sampleRoundZero.targetColor = 1 ∧
    sampleRoundZero.colorOptions.Nodup :=
  session_reset_zeroes_score_and_restarts (fun n => n) (fun l => l) 6
    sampleInit sampleRoundZero 0 18 (fun l => List.Perm.refl l) (by decide)

/-- Claim C9: colors are stored as the string `hsl(h, s%, l%)` and guesses
are compared by string equality; on generator-range colors that string
equality coincides with component-wise equality of the triples. -/
theorem string_equality_is_triple_equality (c1 c2 : Color)
    (_h1 : validColor c1) (_h2 : validColor c2) :
    hslString c1 = hslString c2 ↔ c1 = c2 :=
  hslString_eq_iff

/-- Claim C9 witness at two concrete in-range colors. -/
theorem string_equality_is_triple_equality_witness :
    validColor ⟨200, 70, 45⟩ ∧ validColor ⟨210, 71, 46⟩ ∧
    (hslString ⟨200, 70, 45⟩ = hslString ⟨210, 71, 46⟩ ↔
      (⟨200, 70, 45⟩ : Color) = ⟨210, 71, 46⟩) :=
  ⟨by decide, by decide,
   string_equality_is_triple_equality _ _ (by decide) (by decide)⟩

/-- Claim C10: the decoy hue offset drawn by `generateSimilarColor` is an
integer in [-15, 14] — the offset +15 never occurs — so a decoy's hue is
never exactly `(baseHue + 15) mod 360`. -/
theorem decoy_offset_never_plus_15 (ρ : RandStream) (b i : Nat) :
    (∃ off : Int, -15 ≤ off ∧ off ≤ 14 ∧
      ((generateSimilarColor ρ b i).1.hue : Int) =
        ((b : Int) + off + 360) % 360) ∧
    ((generateSimilarColor ρ b i).1.hue : Int) ≠ ((b : Int) + 15) % 360 := by
  refine ⟨⟨((ρ i % 30 : Nat) : Int) - 15, by omega, ?_,
    generateSimilarColor_hue_eq ρ b i⟩,
    generateSimilarColor_hue_ne_base_add_15 ρ b i⟩
  have h30 : ρ i % 30 < 30 := Nat.mod_lt _ (by omega)
  omega
